import Mathlib

/-!
Shallow embedding of the row-processing pipeline of the CSV geocoding
application (source: `src/app/page.tsx`).

The embedding models:
  * records as association lists from column names to string values
    (`Papa.parse` with a header line yields string-valued objects);
  * the external geocoding service as a function from the query string to a
    behaviour (either the fetch/JSON layer throws, or it returns a JSON
    document with a `status` field and a `results` list);
  * `geocodeAddress`, which throws whenever `data.status !== 'OK'`;
  * the `processFile` row loop, with instrumentation fields recording the
    queries actually sent over the network (`calls`), the inter-row delays
    with their duration in milliseconds (`delays`), the values passed to
    `setProgress` (`reports`), and the classified per-row outcome
    (`outcomes`).  The instrumentation is append-only and does not influence
    the computation, mirroring observable effects of the loop body.
-/

namespace Geocoding

/-- A value stored in an augmented output record: CSV cells are strings, and
the geocoder writes numeric latitude/longitude values. -/
inductive Value where
  | str (s : String)
  | num (q : ℚ)
deriving DecidableEq

/-- One input row, as parsed by the table codec with a header line:
an association list from column name to string cell value. -/
abbrev Record := List (String × String)

/-- One output row: like `Record` but cells may also hold numbers written by
the geocoder (`newRow.Latitude = location.lat`). -/
abbrev AugRecord := List (String × Value)

/-- JS property read `row[k]` on an input row: first binding wins,
`none` models `undefined`. -/
def lookupField (row : Record) (k : String) : Option String :=
  (row.find? (fun p => p.1 == k)).map (fun p => p.2)

/-- Property read on an augmented row. -/
def lookupAug (row : AugRecord) (k : String) : Option Value :=
  (row.find? (fun p => p.1 == k)).map (fun p => p.2)

/-- JS object spread `{...row}`: a copy of the input row, with every cell
still a string. -/
def copyRow (row : Record) : AugRecord :=
  row.map (fun p => (p.1, Value.str p.2))

/-- JS property assignment `row.k = v`: update the binding in place when the
key is present, otherwise append it at the end. -/
def setField (row : AugRecord) (k : String) (v : Value) : AugRecord :=
  if row.any (fun p => p.1 == k) then
    row.map (fun p => if p.1 == k then (k, v) else p)
  else
    row ++ [(k, v)]

/-- The three optional column references chosen in the UI
(`addressCol`, `cityCol`, `countryCol`); `""` means not selected. -/
structure ColumnSelection where
  addressCol : String
  cityCol : String
  countryCol : String
deriving DecidableEq

/-- The contribution of one selected column to `locationParts`:
the code pushes `row[c]` exactly when `c && row[c]` is truthy, i.e. when the
column reference is non-empty and the cell exists and is non-empty. -/
def partFor (c : String) (row : Record) : List String :=
  if c = "" then []
  else
    match lookupField row c with
    | some v => if v = "" then [] else [v]
    | none => []

/-- The `locationParts` array built for one row, in the fixed order
address, city, country. -/
def selectedParts (cols : ColumnSelection) (row : Record) : List String :=
  partFor cols.addressCol row ++ partFor cols.cityCol row ++
    partFor cols.countryCol row

/-- The coordinate pair under `geometry.location` of a geocoding result. -/
structure GeoLocation where
  lat : ℚ
  lng : ℚ
deriving DecidableEq

/-- The `geometry` object of one geocoding result. -/
structure GeoGeometry where
  location : GeoLocation
deriving DecidableEq

/-- One element of the service's `results` list. -/
structure GeoResult where
  geometry : GeoGeometry
deriving DecidableEq

/-- The parsed JSON document returned by the geocoding service. -/
structure GeoResponse where
  status : String
  results : List GeoResult
deriving DecidableEq

/-- Observable behaviour of one network round-trip for a given query:
either the fetch/JSON layer throws with some message, or a document comes
back. -/
inductive ServiceBehavior where
  | throws (msg : String)
  | responds (data : GeoResponse)

/-- The external geocoding capability, as a function from the query string
to the behaviour of the single request made for it. -/
abbrev Service := String → ServiceBehavior

/-- The function `geocodeAddress`: performs the request and throws
`Geocoding failed: <status>` whenever `data.status !== 'OK'`; otherwise
returns the document. `Except.error` models a thrown exception's message. -/
def geocodeAddress (svc : Service) (address : String) :
    Except String GeoResponse :=
  match svc address with
  | .throws msg => .error msg
  | .responds data =>
      if data.status = "OK" then .ok data
      else .error ("Geocoding failed: " ++ data.status)

/-- One entry of `results.errors`: `{row, error, location}`. -/
structure ErrorEntry where
  row : ℕ
  error : String
  location : String
deriving DecidableEq

/-- The classified outcome of one row of the loop body:
short-circuited with an empty query, resolved with coordinates, an `OK`
response whose `results` list is empty, or a thrown error (carrying the
message and the query text). -/
inductive RowPath where
  | emptyQuery
  | resolved (lat lng : ℚ)
  | unresolvedEmpty
  | failed (msg query : String)
deriving DecidableEq

/-- The path the loop body takes for one row: mirrors lines 110-141 of
`page.tsx`.  An empty `locationParts` short-circuits; otherwise
`geocodeAddress` either throws (caught as `failed`) or returns an `OK`
document, whose first result (if any) resolves the row. -/
def rowPath (svc : Service) (cols : ColumnSelection) (row : Record) :
    RowPath :=
  let parts := selectedParts cols row
  if parts = [] then .emptyQuery
  else
    let locationString := String.intercalate ", " parts
    match geocodeAddress svc locationString with
    | .error msg => .failed msg locationString
    | .ok response =>
        match response.results.head? with
        | some r =>
            .resolved r.geometry.location.lat r.geometry.location.lng
        | none => .unresolvedEmpty

/-- The augmented row pushed to `processed` for one input row: `{...row}`,
plus `Latitude`/`Longitude` assignments on the resolved path only. -/
def rowOutput (svc : Service) (cols : ColumnSelection) (row : Record) :
    AugRecord :=
  match rowPath svc cols row with
  | .resolved lat lng =>
      setField (setField (copyRow row) "Latitude" (.num lat))
        "Longitude" (.num lng)
  | _ => copyRow row

/-- The mutable state threaded through the loop, together with the
instrumentation of observable effects. -/
structure LoopState where
  processedRows : ℕ
  skippedRows : List ℕ
  errors : List ErrorEntry
  processed : List AugRecord
  calls : List String
  delays : List (ℕ × ℕ)
  reports : List ℚ
  outcomes : List (ℕ × RowPath)
deriving DecidableEq

/-- The state before the loop body has run on any row. -/
def initState : LoopState := ⟨0, [], [], [], [], [], [], []⟩

/-- One iteration of the `for` loop of `processFile` on 0-based row index
`i` out of `n` total rows.  `calls` records the query whenever the row
reaches `geocodeAddress`; `delays` records the unconditional trailing
`setTimeout(resolve, 200)`; `reports` records `(i + 1) / n * 100`. -/
def stepRow (svc : Service) (cols : ColumnSelection) (n : ℕ)
    (st : LoopState) (i : ℕ) (row : Record) : LoopState :=
  let path := rowPath svc cols row
  let q := String.intercalate ", " (selectedParts cols row)
  { processedRows := st.processedRows +
      (match path with | .resolved _ _ => 1 | _ => 0)
    skippedRows := st.skippedRows ++
      (match path with | .resolved _ _ => [] | _ => [i + 1])
    errors := st.errors ++
      (match path with
       | .failed msg query => [⟨i + 1, msg, query⟩]
       | _ => [])
    processed := st.processed ++ [rowOutput svc cols row]
    calls := st.calls ++
      (match path with | .emptyQuery => [] | _ => [q])
    delays := st.delays ++ [(i + 1, 200)]
    reports := st.reports ++ [((i : ℚ) + 1) / (n : ℚ) * 100]
    outcomes := st.outcomes ++ [(i + 1, path)] }

/-- The whole `for` loop, starting at 0-based index `i`. -/
def runLoop (svc : Service) (cols : ColumnSelection) (n : ℕ) :
    ℕ → List Record → LoopState → LoopState
  | _, [], st => st
  | i, row :: rest, st =>
      runLoop svc cols n (i + 1) rest (stepRow svc cols n st i row)

/-- The final tally shown to the user (`GeocodingResults`). -/
structure GeocodingResults where
  totalRows : ℕ
  processedRows : ℕ
  skippedRows : List ℕ
  errors : List ErrorEntry
deriving DecidableEq

/-- Everything a completed run produces: the tally, the augmented output
sequence, and the instrumentation of observable effects. -/
structure RunResult where
  results : GeocodingResults
  processed : List AugRecord
  calls : List String
  delays : List (ℕ × ℕ)
  reports : List ℚ
  outcomes : List (ℕ × RowPath)
deriving DecidableEq

/-- Packaging of the final loop state into the run's result. -/
def finishRun (n : ℕ) (final : LoopState) : RunResult :=
  { results := { totalRows := n
                 processedRows := final.processedRows
                 skippedRows := final.skippedRows
                 errors := final.errors }
    processed := final.processed
    calls := final.calls
    delays := final.delays
    reports := final.reports
    outcomes := final.outcomes }

/-- The complete run over the already-parsed records, after the guards. -/
def runRecords (svc : Service) (cols : ColumnSelection)
    (records : List Record) : RunResult :=
  finishRun records.length
    (runLoop svc cols records.length 0 records initState)

/-- The function `processFile`: the guard clauses (no location column
selected, missing API key) fail before any record is touched, mirroring the
early `return`s with their `setError` messages; otherwise the loop runs over
the parsed records.  The parsed `records` list stands for the uploaded file,
so the `!file` disjunct of the first guard is not modelled separately. -/
def processFile (svc : Service) (cols : ColumnSelection) (apiKey : String)
    (records : List Record) : Except String RunResult :=
  if cols.addressCol = "" ∧ cols.cityCol = "" ∧ cols.countryCol = "" then
    .error "Please select a file and at least one location column"
  else if apiKey = "" then
    .error "Please enter your Google Maps API Key"
  else
    .ok (runRecords svc cols records)

/-! ## Concrete data for witnesses and counterexamples -/

/-- A demo service: one query resolves, one gets `ZERO_RESULTS`, one gets an
`OK` document with an empty result list, and every other query makes the
fetch layer throw. -/
def svcDemo : Service := fun q =>
  if q = "1 Main St, Springfield" then .responds ⟨"OK", [⟨⟨⟨1, 2⟩⟩⟩]⟩
  else if q = "Nowhere" then .responds ⟨"ZERO_RESULTS", []⟩
  else if q = "Vague" then .responds ⟨"OK", []⟩
  else .throws "network down"

/-- Demo column selection: address and city columns chosen. -/
def demoCols : ColumnSelection := ⟨"addr", "city", ""⟩

/-- Five demo rows exercising every path: resolved, empty query,
`ZERO_RESULTS`, `OK` with no results, thrown network error. -/
def demoRecords : List Record :=
  [[("addr", "1 Main St"), ("city", "Springfield")],
   [("addr", ""), ("city", "")],
   [("addr", "Nowhere")],
   [("addr", "Vague")],
   [("addr", "Boom")]]

/-- The result of the demo run (total function: the demo configuration is
valid, so the error branch is never taken). -/
def demoRun : RunResult :=
  match processFile svcDemo demoCols "key" demoRecords with
  | .ok r => r
  | .error _ => ⟨⟨0, 0, [], []⟩, [], [], [], [], []⟩

theorem demo_ok :
    processFile svcDemo demoCols "key" demoRecords = .ok demoRun := by
  rfl

/-- The reports list of a run, `[]` on a configuration error. -/
def runReports (x : Except String RunResult) : List ℚ :=
  match x with
  | .ok r => r.reports
  | .error _ => []

/-- The queries sent over the network during a run, `[]` on a
configuration error. -/
def runCalls (x : Except String RunResult) : List String :=
  match x with
  | .ok r => r.calls
  | .error _ => []

/-- The inter-row delays of a run, `[]` on a configuration error. -/
def runDelays (x : Except String RunResult) : List (ℕ × ℕ) :=
  match x with
  | .ok r => r.delays
  | .error _ => []

/-! ## Lemmas about one loop iteration -/

theorem stepRow_bucket (svc : Service) (cols : ColumnSelection) (n : ℕ)
    (st : LoopState) (i : ℕ) (row : Record) :
    (stepRow svc cols n st i row).processedRows +
      (stepRow svc cols n st i row).skippedRows.length =
    st.processedRows + st.skippedRows.length + 1 := by
  cases h : rowPath svc cols row <;> simp [stepRow, h] <;> omega

theorem stepRow_processed (svc : Service) (cols : ColumnSelection) (n : ℕ)
    (st : LoopState) (i : ℕ) (row : Record) :
    (stepRow svc cols n st i row).processed =
      st.processed ++ [rowOutput svc cols row] := rfl

theorem stepRow_delays (svc : Service) (cols : ColumnSelection) (n : ℕ)
    (st : LoopState) (i : ℕ) (row : Record) :
    (stepRow svc cols n st i row).delays = st.delays ++ [(i + 1, 200)] := rfl

theorem stepRow_reports (svc : Service) (cols : ColumnSelection) (n : ℕ)
    (st : LoopState) (i : ℕ) (row : Record) :
    (stepRow svc cols n st i row).reports =
      st.reports ++ [((i : ℚ) + 1) / (n : ℚ) * 100] := rfl

/-! ## Lemmas about the whole loop -/

theorem runLoop_bucket (svc : Service) (cols : ColumnSelection) (n : ℕ)
    (rows : List Record) : ∀ (i : ℕ) (st : LoopState),
    (runLoop svc cols n i rows st).processedRows +
      (runLoop svc cols n i rows st).skippedRows.length =
    st.processedRows + st.skippedRows.length + rows.length := by
  induction rows with
  | nil => intro i st; simp [runLoop]
  | cons row rest ih =>
      intro i st
      rw [runLoop, ih (i + 1) (stepRow svc cols n st i row)]
      rw [stepRow_bucket]
      simp
      omega

theorem runLoop_processed (svc : Service) (cols : ColumnSelection) (n : ℕ)
    (rows : List Record) : ∀ (i : ℕ) (st : LoopState),
    (runLoop svc cols n i rows st).processed =
      st.processed ++ rows.map (rowOutput svc cols) := by
  induction rows with
  | nil => intro i st; simp [runLoop]
  | cons row rest ih =>
      intro i st
      rw [runLoop, ih (i + 1) (stepRow svc cols n st i row), stepRow_processed]
      simp

/-- Extract the result value from a successful run. -/
theorem processFile_ok_eq (svc : Service) (cols : ColumnSelection)
    (key : String) (records : List Record) (res : RunResult)
    (h : processFile svc cols key records = .ok res) :
    res = runRecords svc cols records := by
  unfold processFile at h
  split at h
  · exact absurd h (by simp)
  · split at h
    · exact absurd h (by simp)
    · exact (Except.ok.inj h).symm

/-! ## C1 -/

/-- C1: in every completed run, `processedRows + |skippedRowIndices|`
equals `totalRows`: each row lands in exactly one of the two buckets. -/
theorem run_tally_partition (svc : Service) (cols : ColumnSelection)
    (key : String) (records : List Record) (res : RunResult)
    (h : processFile svc cols key records = .ok res) :
    res.results.processedRows + res.results.skippedRows.length =
      res.results.totalRows := by
  rw [processFile_ok_eq svc cols key records res h]
  show (runLoop svc cols records.length 0 records initState).processedRows +
      (runLoop svc cols records.length 0 records initState).skippedRows.length
    = records.length
  rw [runLoop_bucket]
  simp [initState]

/-- C1 witness: concrete five-row demo run, one row per path. -/
theorem run_tally_partition_witness :
    demoRun.results.processedRows + demoRun.results.skippedRows.length =
      demoRun.results.totalRows :=
  run_tally_partition svcDemo demoCols "key" demoRecords demoRun demo_ok

/-! ## C2 -/

/-- C2: the augmented output has exactly one row per input row, the i-th
output row being the augmentation of the i-th input row. -/
theorem output_matches_input (svc : Service) (cols : ColumnSelection)
    (key : String) (records : List Record) (res : RunResult)
    (h : processFile svc cols key records = .ok res) :
    res.processed = records.map (rowOutput svc cols) ∧
      res.processed.length = records.length := by
  rw [processFile_ok_eq svc cols key records res h]
  constructor
  · show (runLoop svc cols records.length 0 records initState).processed = _
    rw [runLoop_processed]
    simp [initState]
  · show (runLoop svc cols records.length 0 records initState).processed.length = _
    rw [runLoop_processed]
    simp [initState]

/-- C2 witness: the demo run's output is the row-wise augmentation of the
demo input, with equal length. -/
theorem output_matches_input_witness :
    demoRun.processed = demoRecords.map (rowOutput svcDemo demoCols) ∧
      demoRun.processed.length = demoRecords.length :=
  output_matches_input svcDemo demoCols "key" demoRecords demoRun demo_ok

/-! ## Invariant: error entries versus skipped rows (C4) -/

theorem stepRow_inv (svc : Service) (cols : ColumnSelection) (n : ℕ)
    (st : LoopState) (i : ℕ) (row : Record)
    (hb : ∀ x ∈ st.skippedRows, x ≤ i)
    (hp : st.skippedRows.Pairwise (· < ·))
    (he : ∀ e ∈ st.errors, e.row ∈ st.skippedRows ∧
        (e.row, RowPath.failed e.error e.location) ∈ st.outcomes) :
    (∀ x ∈ (stepRow svc cols n st i row).skippedRows, x ≤ i + 1) ∧
    (stepRow svc cols n st i row).skippedRows.Pairwise (· < ·) ∧
    (∀ e ∈ (stepRow svc cols n st i row).errors,
        e.row ∈ (stepRow svc cols n st i row).skippedRows ∧
        (e.row, RowPath.failed e.error e.location) ∈
          (stepRow svc cols n st i row).outcomes) := by
  have hbext : ∀ x ∈ st.skippedRows ++ [i + 1], x ≤ i + 1 := by
    intro x hx
    rcases List.mem_append.mp hx with hx | hx
    · exact (hb x hx).trans (Nat.le_succ i)
    · simp at hx; omega
  have hpext : (st.skippedRows ++ [i + 1]).Pairwise (· < ·) := by
    rw [List.pairwise_append]
    refine ⟨hp, List.pairwise_singleton _ _, ?_⟩
    intro a ha b hbm
    simp at hbm
    subst hbm
    exact Nat.lt_succ_of_le (hb a ha)
  cases h : rowPath svc cols row
  case emptyQuery =>
    simp only [stepRow, h]
    refine ⟨hbext, hpext, ?_⟩
    intro e hem
    simp only [List.append_nil] at hem
    obtain ⟨h1, h2⟩ := he e hem
    exact ⟨List.mem_append_left _ h1, List.mem_append_left _ h2⟩
  case resolved lat lng =>
    simp only [stepRow, h, List.append_nil]
    refine ⟨fun x hx => (hb x hx).trans (Nat.le_succ i), hp, ?_⟩
    intro e hem
    obtain ⟨h1, h2⟩ := he e hem
    exact ⟨h1, List.mem_append_left _ h2⟩
  case unresolvedEmpty =>
    simp only [stepRow, h]
    refine ⟨hbext, hpext, ?_⟩
    intro e hem
    simp only [List.append_nil] at hem
    obtain ⟨h1, h2⟩ := he e hem
    exact ⟨List.mem_append_left _ h1, List.mem_append_left _ h2⟩
  case failed msg query =>
    simp only [stepRow, h]
    refine ⟨hbext, hpext, ?_⟩
    intro e hem
    rcases List.mem_append.mp hem with hem | hem
    · obtain ⟨h1, h2⟩ := he e hem
      exact ⟨List.mem_append_left _ h1, List.mem_append_left _ h2⟩
    · simp at hem
      subst hem
      refine ⟨List.mem_append_right _ (by simp), ?_⟩
      exact List.mem_append_right _ (by simp)

theorem runLoop_inv (svc : Service) (cols : ColumnSelection) (n : ℕ)
    (rows : List Record) : ∀ (i : ℕ) (st : LoopState),
    (∀ x ∈ st.skippedRows, x ≤ i) →
    st.skippedRows.Pairwise (· < ·) →
    (∀ e ∈ st.errors, e.row ∈ st.skippedRows ∧
        (e.row, RowPath.failed e.error e.location) ∈ st.outcomes) →
    ((∀ x ∈ (runLoop svc cols n i rows st).skippedRows,
        x ≤ i + rows.length) ∧
     (runLoop svc cols n i rows st).skippedRows.Pairwise (· < ·) ∧
     (∀ e ∈ (runLoop svc cols n i rows st).errors,
        e.row ∈ (runLoop svc cols n i rows st).skippedRows ∧
        (e.row, RowPath.failed e.error e.location) ∈
          (runLoop svc cols n i rows st).outcomes)) := by
  induction rows with
  | nil =>
      intro i st hb hp he
      simpa [runLoop] using ⟨hb, hp, he⟩
  | cons row rest ih =>
      intro i st hb hp he
      obtain ⟨hb', hp', he'⟩ := stepRow_inv svc cols n st i row hb hp he
      obtain ⟨rb, rp, re⟩ :=
        ih (i + 1) (stepRow svc cols n st i row) hb' hp' he'
      rw [runLoop]
      refine ⟨?_, rp, re⟩
      intro x hx
      have := rb x hx
      simp only [List.length_cons]
      omega

/-! ## C4 -/

/-- C4: every error entry's row index is in `skippedRows`, appears there
exactly once, and the corresponding row's outcome was `failed` with exactly
that entry's message and query text. -/
theorem errors_subset_skipped (svc : Service) (cols : ColumnSelection)
    (key : String) (records : List Record) (res : RunResult)
    (h : processFile svc cols key records = .ok res) :
    ∀ e ∈ res.results.errors,
      e.row ∈ res.results.skippedRows ∧
      res.results.skippedRows.count e.row = 1 ∧
      (e.row, RowPath.failed e.error e.location) ∈ res.outcomes := by
  rw [processFile_ok_eq svc cols key records res h]
  intro e hem
  obtain ⟨_, hp, he⟩ :=
    runLoop_inv svc cols records.length records 0 initState
      (by simp [initState]) (by simp [initState]) (by simp [initState])
  obtain ⟨h1, h2⟩ := he e hem
  refine ⟨h1, ?_, h2⟩
  have hnd : (runLoop svc cols records.length 0 records
      initState).skippedRows.Nodup :=
    hp.imp (fun hab => Nat.ne_of_lt hab)
  exact List.count_eq_one_of_mem hnd h1

/-- C4 witness: in the demo run, the `ZERO_RESULTS` row (row 3) has an error
entry, sits in the skipped list exactly once, and its outcome was a failure
with that message and query. -/
theorem errors_subset_skipped_witness :
    (3 : ℕ) ∈ demoRun.results.skippedRows ∧
    demoRun.results.skippedRows.count 3 = 1 ∧
    ((3 : ℕ), RowPath.failed "Geocoding failed: ZERO_RESULTS" "Nowhere") ∈
      demoRun.outcomes :=
  errors_subset_skipped svcDemo demoCols "key" demoRecords demoRun demo_ok
    ⟨3, "Geocoding failed: ZERO_RESULTS", "Nowhere"⟩ (by decide)

/-! ## Delays and progress reports (C8, C9) -/

theorem runLoop_delays (svc : Service) (cols : ColumnSelection) (n : ℕ)
    (rows : List Record) : ∀ (i : ℕ) (st : LoopState),
    (runLoop svc cols n i rows st).delays =
      st.delays ++ (List.range' (i + 1) rows.length).map (fun j => (j, 200)) := by
  induction rows with
  | nil => intro i st; simp [runLoop]
  | cons row rest ih =>
      intro i st
      rw [runLoop, ih (i + 1) (stepRow svc cols n st i row), stepRow_delays]
      simp [List.range'_succ]

theorem runLoop_reports (svc : Service) (cols : ColumnSelection) (n : ℕ)
    (rows : List Record) : ∀ (i : ℕ) (st : LoopState),
    (runLoop svc cols n i rows st).reports =
      st.reports ++ (List.range' (i + 1) rows.length).map
        (fun j : ℕ => (j : ℚ) / (n : ℚ) * 100) := by
  induction rows with
  | nil => intro i st; simp [runLoop]
  | cons row rest ih =>
      intro i st
      rw [runLoop, ih (i + 1) (stepRow svc cols n st i row), stepRow_reports]
      simp [List.range'_succ]

/-! ## C8 -/

/-- C8 counterexample: a single row whose selected column is empty makes no
network call (`calls = []`), yet the 200 ms delay still occurs after it
(`delays = [(1, 200)]`), refuting "the delay never occurs after a row that
was short-circuited with an empty query". -/
theorem delay_without_call_cx :
    runCalls (processFile svcDemo ⟨"addr", "", ""⟩ "key" [[("addr", "")]]) = [] ∧
    runDelays (processFile svcDemo ⟨"addr", "", ""⟩ "key" [[("addr", "")]]) =
      [(1, 200)] := by
  constructor <;> decide

/-- C8 amended: the fixed 200 ms delay occurs after every row
unconditionally — rows 1 through `totalRows`, including rows
short-circuited with an empty query and the final row. -/
theorem delay_after_every_row (svc : Service) (cols : ColumnSelection)
    (key : String) (records : List Record) (res : RunResult)
    (h : processFile svc cols key records = .ok res) :
    res.delays = (List.range' 1 records.length).map (fun j => (j, 200)) := by
  rw [processFile_ok_eq svc cols key records res h]
  show (runLoop svc cols records.length 0 records initState).delays = _
  rw [runLoop_delays]
  simp [initState]

/-- C8 amended witness: the five-row demo run delays after each of the five
rows, the empty-query row 2 and the final row 5 included. -/
theorem delay_after_every_row_witness :
    demoRun.delays =
      (List.range' 1 demoRecords.length).map (fun j => (j, 200)) :=
  delay_after_every_row svcDemo demoCols "key" demoRecords demoRun demo_ok

/-! ## C9 -/

/-- C9 counterexample: a one-row run reports the single value 100 (the code
passes `(i + 1) / data.length * 100` to `setProgress`), so the reported
sequence never contains the value 1.0 claimed by the spec. -/
theorem progress_not_fraction_cx :
    runReports (processFile svcDemo demoCols "key"
        [[("addr", "1 Main St"), ("city", "Springfield")]]) = [100] ∧
    (1 : ℚ) ∉ runReports (processFile svcDemo demoCols "key"
        [[("addr", "1 Main St"), ("city", "Springfield")]]) := by
  have hok : processFile svcDemo demoCols "key"
      [[("addr", "1 Main St"), ("city", "Springfield")]] =
      .ok (runRecords svcDemo demoCols
        [[("addr", "1 Main St"), ("city", "Springfield")]]) := rfl
  have hrep : runReports (processFile svcDemo demoCols "key"
      [[("addr", "1 Main St"), ("city", "Springfield")]]) = [100] := by
    rw [hok]
    show (runLoop svcDemo demoCols 1 0 _ initState).reports = _
    rw [runLoop_reports]
    simp [initState, List.range'_succ]
  refine ⟨hrep, ?_⟩
  rw [hrep]
  simp

/-- C9 amended: after each row the reported value is
`(rows handled so far) / totalRows * 100`, a percentage; the sequence is
strictly increasing and, for a non-empty input, reaches the value 100
exactly once, at completion of the run. -/
theorem progress_reports_spec (svc : Service) (cols : ColumnSelection)
    (key : String) (records : List Record) (res : RunResult)
    (h : processFile svc cols key records = .ok res) :
    res.reports = (List.range' 1 records.length).map
        (fun j : ℕ => (j : ℚ) / (records.length : ℚ) * 100) ∧
    (records ≠ [] →
      res.reports.Pairwise (· < ·) ∧
      res.reports.count 100 = 1 ∧
      res.reports.getLast? = some 100) := by
  have hrep : res.reports = (List.range' 1 records.length).map
      (fun j : ℕ => (j : ℚ) / (records.length : ℚ) * 100) := by
    rw [processFile_ok_eq svc cols key records res h]
    show (runLoop svc cols records.length 0 records initState).reports = _
    rw [runLoop_reports]
    simp [initState]
  refine ⟨hrep, fun hne => ?_⟩
  have hn : 0 < records.length := List.length_pos.mpr hne
  have hnq : (0 : ℚ) < (records.length : ℚ) := by exact_mod_cast hn
  have hcast : ((records.length : ℕ) : ℚ) ≠ 0 := ne_of_gt hnq
  have hself : (records.length : ℚ) / (records.length : ℚ) * 100 = 100 := by
    rw [div_self hcast, one_mul]
  have hmono : ∀ a b : ℕ, a < b →
      (a : ℚ) / (records.length : ℚ) * 100 <
        (b : ℚ) / (records.length : ℚ) * 100 := by
    intro a b hab
    have hq : (a : ℚ) < (b : ℚ) := by exact_mod_cast hab
    exact mul_lt_mul_of_pos_right
      ((div_lt_div_iff_of_pos_right hnq).mpr hq) (by norm_num)
  have hpw : res.reports.Pairwise (· < ·) := by
    rw [hrep]
    exact List.Pairwise.map
      (fun j : ℕ => (j : ℚ) / (records.length : ℚ) * 100)
      (fun a b hab => hmono a b hab)
      (List.pairwise_lt_range' 1 records.length)
  have hmem : (100 : ℚ) ∈ res.reports := by
    rw [hrep]
    refine List.mem_map.mpr ⟨records.length, ?_, hself⟩
    exact List.mem_range'_1.mpr ⟨hn, Nat.lt_one_add_iff.mpr (Nat.le_refl _)⟩
  refine ⟨hpw, ?_, ?_⟩
  · exact List.count_eq_one_of_mem
      (hpw.imp (fun hab => ne_of_lt hab)) hmem
  · obtain ⟨m, hm⟩ : ∃ m, records.length = m + 1 :=
      ⟨records.length - 1, by omega⟩
    rw [hrep, List.getLast?_map, hm, List.range'_1_concat,
      List.getLast?_concat]
    simp only [Option.map_some']
    rw [Nat.add_comm 1 m, ← hm, hself]

/-- C9 amended witness: the five-row demo run reports 20, 40, 60, 80, 100 —
strictly increasing, with 100 appearing exactly once, at the end. -/
theorem progress_reports_spec_witness :
    demoRun.reports.Pairwise (· < ·) ∧
    demoRun.reports.count 100 = 1 ∧
    demoRun.reports.getLast? = some 100 :=
  (progress_reports_spec svcDemo demoCols "key" demoRecords demoRun
    demo_ok).2 (by decide)

/-! ## C3 -/

/-- The error entries of a run, `[]` on a configuration error. -/
def runErrors (x : Except String RunResult) : List ErrorEntry :=
  match x with
  | .ok r => r.results.errors
  | .error _ => []

/-- The skipped-row indices of a run, `[]` on a configuration error. -/
def runSkipped (x : Except String RunResult) : List ℕ :=
  match x with
  | .ok r => r.results.skippedRows
  | .error _ => []

/-- C3 counterexample: the service answers `ZERO_RESULTS` (a non-error
response with an empty result list), yet the row gets an entry in
`errorDetails` — because `geocodeAddress` throws on every status other than
`OK` — refuting "no entry is added to errorDetails". -/
theorem zero_results_gets_error_cx :
    runErrors (processFile svcDemo ⟨"addr", "", ""⟩ "key"
        [[("addr", "Nowhere")]]) =
      [⟨1, "Geocoding failed: ZERO_RESULTS", "Nowhere"⟩] ∧
    runSkipped (processFile svcDemo ⟨"addr", "", ""⟩ "key"
        [[("addr", "Nowhere")]]) = [1] := by
  constructor <;> decide

/-- C3 amended: any response whose status is not `OK` (including
`ZERO_RESULTS`) makes the row Failed — its index is appended to
`skippedRows` and an entry with message `Geocoding failed: <status>` and the
query text is appended to `errors`; the Unresolved outcome (skipped, no
error entry) occurs exactly when the status is `OK` and the result list is
empty; a thrown transport error also yields Failed with the thrown
message. -/
theorem non_ok_status_is_failure (svc : Service) (cols : ColumnSelection)
    (n : ℕ) (st : LoopState) (i : ℕ) (row : Record)
    (hq : selectedParts cols row ≠ []) :
    (∀ resp : GeoResponse,
      svc (String.intercalate ", " (selectedParts cols row)) =
          .responds resp →
      resp.status ≠ "OK" →
      (stepRow svc cols n st i row).skippedRows =
          st.skippedRows ++ [i + 1] ∧
      (stepRow svc cols n st i row).errors = st.errors ++
        [⟨i + 1, "Geocoding failed: " ++ resp.status,
          String.intercalate ", " (selectedParts cols row)⟩]) ∧
    (∀ resp : GeoResponse,
      svc (String.intercalate ", " (selectedParts cols row)) =
          .responds resp →
      resp.status = "OK" → resp.results = [] →
      (stepRow svc cols n st i row).skippedRows =
          st.skippedRows ++ [i + 1] ∧
      (stepRow svc cols n st i row).errors = st.errors) ∧
    (∀ msg : String,
      svc (String.intercalate ", " (selectedParts cols row)) =
          .throws msg →
      (stepRow svc cols n st i row).skippedRows =
          st.skippedRows ++ [i + 1] ∧
      (stepRow svc cols n st i row).errors = st.errors ++
        [⟨i + 1, msg,
          String.intercalate ", " (selectedParts cols row)⟩]) := by
  refine ⟨?_, ?_, ?_⟩
  · intro resp hresp hnok
    have hpath : rowPath svc cols row =
        .failed ("Geocoding failed: " ++ resp.status)
          (String.intercalate ", " (selectedParts cols row)) := by
      simp [rowPath, geocodeAddress, hq, hresp, hnok]
    constructor <;> simp [stepRow, hpath]
  · intro resp hresp hok hres
    have hpath : rowPath svc cols row = .unresolvedEmpty := by
      simp [rowPath, geocodeAddress, hq, hresp, hok, hres]
    constructor <;> simp [stepRow, hpath]
  · intro msg hmsg
    have hpath : rowPath svc cols row =
        .failed msg (String.intercalate ", " (selectedParts cols row)) := by
      simp [rowPath, geocodeAddress, hq, hmsg]
    constructor <;> simp [stepRow, hpath]

/-- C3 amended witness: the `ZERO_RESULTS` row `Nowhere` is skipped and gets
the error entry `Geocoding failed: ZERO_RESULTS`. -/
theorem non_ok_status_is_failure_witness :
    (stepRow svcDemo ⟨"addr", "", ""⟩ 1 initState 0
        [("addr", "Nowhere")]).skippedRows =
      initState.skippedRows ++ [1] ∧
    (stepRow svcDemo ⟨"addr", "", ""⟩ 1 initState 0
        [("addr", "Nowhere")]).errors =
      initState.errors ++
        [⟨1, "Geocoding failed: ZERO_RESULTS", "Nowhere"⟩] :=
  (non_ok_status_is_failure svcDemo ⟨"addr", "", ""⟩ 1 initState 0
      [("addr", "Nowhere")] (by decide)).1 ⟨"ZERO_RESULTS", []⟩ rfl
    (by decide)

/-! ## C5 -/

/-- C5: if no location column is selected or the API key is empty, the run
fails with a configuration error message and no result (tally, output,
calls, delays) is produced; with a valid configuration, an empty input
yields an empty output and a zero tally. -/
theorem config_guards (svc : Service) (cols : ColumnSelection)
    (apiKey : String) (records : List Record) :
    ((cols.addressCol = "" ∧ cols.cityCol = "" ∧ cols.countryCol = "") ∨
        apiKey = "" →
      ∃ msg, processFile svc cols apiKey records = .error msg) ∧
    (¬(cols.addressCol = "" ∧ cols.cityCol = "" ∧ cols.countryCol = "") →
      apiKey ≠ "" →
      processFile svc cols apiKey [] =
        .ok ⟨⟨0, 0, [], []⟩, [], [], [], [], []⟩) := by
  constructor
  · rintro (hcols | hkey)
    · exact ⟨"Please select a file and at least one location column",
        by simp [processFile, hcols]⟩
    · by_cases hcols :
          cols.addressCol = "" ∧ cols.cityCol = "" ∧ cols.countryCol = ""
      · exact ⟨"Please select a file and at least one location column",
          by simp [processFile, hcols]⟩
      · exact ⟨"Please enter your Google Maps API Key",
          by simp [processFile, hcols, hkey]⟩
  · intro hcols hkey
    have hgo : processFile svc cols apiKey [] =
        .ok (runRecords svc cols []) := by
      unfold processFile
      rw [if_neg hcols, if_neg hkey]
    rw [hgo]
    rfl

/-- C5 witness: with no column selected the demo run fails with an error;
with a valid configuration the empty input yields the empty result. -/
theorem config_guards_witness :
    (∃ msg, processFile svcDemo ⟨"", "", ""⟩ "key" demoRecords =
        .error msg) ∧
    processFile svcDemo demoCols "key" [] =
      .ok ⟨⟨0, 0, [], []⟩, [], [], [], [], []⟩ :=
  ⟨(config_guards svcDemo ⟨"", "", ""⟩ "key" demoRecords).1
      (Or.inl ⟨rfl, rfl, rfl⟩),
   (config_guards svcDemo demoCols "key" []).2 (by decide) (by decide)⟩

/-! ## C6 -/

/-- C6: a row whose selected columns yield no non-empty value is
short-circuited: no network call, index appended to `skippedRows`, the
record copied unchanged into the output, no error entry, no processed-row
increment. -/
theorem empty_query_row_skipped (svc : Service) (cols : ColumnSelection)
    (n : ℕ) (st : LoopState) (i : ℕ) (row : Record)
    (h : selectedParts cols row = []) :
    (stepRow svc cols n st i row).calls = st.calls ∧
    (stepRow svc cols n st i row).skippedRows =
        st.skippedRows ++ [i + 1] ∧
    (stepRow svc cols n st i row).processed =
        st.processed ++ [copyRow row] ∧
    (stepRow svc cols n st i row).processedRows = st.processedRows ∧
    (stepRow svc cols n st i row).errors = st.errors := by
  have hpath : rowPath svc cols row = .emptyQuery := by
    simp [rowPath, h]
  have hout : rowOutput svc cols row = copyRow row := by
    simp [rowOutput, hpath]
  refine ⟨?_, ?_, ?_, ?_, ?_⟩ <;> simp [stepRow, hpath, hout]

/-- C6 witness: demo row 2 has both selected columns empty, so it is skipped
with no network call and copied unchanged. -/
theorem empty_query_row_skipped_witness :
    (stepRow svcDemo demoCols 5 initState 1
        [("addr", ""), ("city", "")]).calls = initState.calls ∧
    (stepRow svcDemo demoCols 5 initState 1
        [("addr", ""), ("city", "")]).skippedRows =
      initState.skippedRows ++ [2] ∧
    (stepRow svcDemo demoCols 5 initState 1
        [("addr", ""), ("city", "")]).processed =
      initState.processed ++ [copyRow [("addr", ""), ("city", "")]] ∧
    (stepRow svcDemo demoCols 5 initState 1
        [("addr", ""), ("city", "")]).processedRows =
      initState.processedRows ∧
    (stepRow svcDemo demoCols 5 initState 1
        [("addr", ""), ("city", "")]).errors = initState.errors :=
  empty_query_row_skipped svcDemo demoCols 5 initState 1
    [("addr", ""), ("city", "")] (by decide)

/-! ## C7 -/

/-- Modelled after the spec's words for the Location Query: the value of a
selected column, kept only when the column reference is set and the row's
value there is non-empty. -/
def specPick (row : Record) (c : String) : Option String :=
  if c = "" then none
  else
    match lookupField row c with
    | some v => if v = "" then none else some v
    | none => none

/-- Modelled after the spec's words: the selected columns' non-empty values
for a row, in the fixed selection order address, city, country. -/
def specSelectedValues (cols : ColumnSelection) (row : Record) :
    List String :=
  [cols.addressCol, cols.cityCol, cols.countryCol].filterMap (specPick row)

theorem partFor_eq_specPick (c : String) (row : Record) :
    partFor c row = (specPick row c).toList := by
  by_cases hc : c = ""
  · simp [partFor, specPick, hc]
  · cases hf : lookupField row c with
    | none => simp [partFor, specPick, hc, hf]
    | some v => by_cases hv : v = "" <;> simp [partFor, specPick, hc, hf, hv]

theorem selectedParts_eq_spec (cols : ColumnSelection) (row : Record) :
    selectedParts cols row = specSelectedValues cols row := by
  unfold selectedParts specSelectedValues
  rw [partFor_eq_specPick, partFor_eq_specPick, partFor_eq_specPick]
  cases h1 : specPick row cols.addressCol <;>
    cases h2 : specPick row cols.cityCol <;>
      cases h3 : specPick row cols.countryCol <;>
        simp [List.filterMap_cons, h1, h2, h3]

theorem rowPath_emptyQuery_iff (svc : Service) (cols : ColumnSelection)
    (row : Record) :
    rowPath svc cols row = .emptyQuery ↔ selectedParts cols row = [] := by
  constructor
  · intro hp
    by_contra hne
    cases hg : geocodeAddress svc
        (String.intercalate ", " (selectedParts cols row)) with
    | error msg => simp [rowPath, hne, hg] at hp
    | ok resp => cases hh : resp.results.head? <;>
        simp [rowPath, hne, hg, hh] at hp
  · intro he
    simp [rowPath, he]

/-- C7: when a row has at least one selected non-empty value, the query sent
to the geocoding client is the comma-separated concatenation (separator
`", "`) of exactly the selected, non-empty column values of that row, in the
fixed order address, city, country — `specSelectedValues`, written from the
spec's words. -/
theorem query_matches_spec (svc : Service) (cols : ColumnSelection)
    (n : ℕ) (st : LoopState) (i : ℕ) (row : Record)
    (h : selectedParts cols row ≠ []) :
    (stepRow svc cols n st i row).calls =
      st.calls ++
        [String.intercalate ", " (specSelectedValues cols row)] := by
  rw [← selectedParts_eq_spec]
  cases hp : rowPath svc cols row with
  | emptyQuery =>
      exact absurd ((rowPath_emptyQuery_iff svc cols row).mp hp) h
  | resolved lat lng => simp [stepRow, hp]
  | unresolvedEmpty => simp [stepRow, hp]
  | failed msg query => simp [stepRow, hp]

/-- C7 witness: demo row 1 selects address and city, both non-empty, and
the query sent is their comma-separated concatenation in that order. -/
theorem query_matches_spec_witness :
    (stepRow svcDemo demoCols 5 initState 0
        [("addr", "1 Main St"), ("city", "Springfield")]).calls =
      initState.calls ++
        [String.intercalate ", " (specSelectedValues demoCols
          [("addr", "1 Main St"), ("city", "Springfield")])] :=
  query_matches_spec svcDemo demoCols 5 initState 0
    [("addr", "1 Main St"), ("city", "Springfield")] (by decide)

/-! ## C10 -/

theorem find?_map_overwrite (r : AugRecord) (k : String) (v : Value)
    (ha : r.any (fun p => p.1 == k) = true) :
    (r.map (fun p => if p.1 == k then (k, v) else p)).find?
      (fun p => p.1 == k) = some (k, v) := by
  induction r with
  | nil => simp at ha
  | cons p rest ih =>
      rw [List.map_cons]
      by_cases hp : p.1 = k
      · have hmap : (if p.1 == k then (k, v) else p) = (k, v) := by
          simp [hp]
        rw [hmap, List.find?_cons_of_pos _ (by simp)]
      · have hmap : (if p.1 == k then (k, v) else p) = p := by
          simp [hp]
        have ha' : rest.any (fun p => p.1 == k) = true := by
          rcases List.any_eq_true.mp ha with ⟨x, hx, hxk⟩
          rcases List.mem_cons.mp hx with rfl | hx'
          · exact absurd (by simpa using hxk) hp
          · exact List.any_eq_true.mpr ⟨x, hx', hxk⟩
        rw [hmap, List.find?_cons_of_neg _ (by simp [hp])]
        exact ih ha'

theorem find?_map_overwrite_ne (r : AugRecord) (q : String) (v : Value)
    (k : String) (hne : k ≠ q) :
    (r.map (fun p => if p.1 == q then (q, v) else p)).find?
        (fun p => p.1 == k) =
      r.find? (fun p => p.1 == k) := by
  induction r with
  | nil => rfl
  | cons p rest ih =>
      rw [List.map_cons]
      by_cases hp : p.1 = q
      · have hmap : (if p.1 == q then (q, v) else p) = (q, v) := by
          simp [hp]
        rw [hmap, List.find?_cons_of_neg _ (by simp [Ne.symm hne]),
          List.find?_cons_of_neg _ (by simp [hp, Ne.symm hne])]
        exact ih
      · have hmap : (if p.1 == q then (q, v) else p) = p := by
          simp [hp]
        rw [hmap]
        by_cases hk : p.1 = k
        · rw [List.find?_cons_of_pos _ (by simp [hk]),
            List.find?_cons_of_pos _ (by simp [hk])]
        · rw [List.find?_cons_of_neg _ (by simp [hk]),
            List.find?_cons_of_neg _ (by simp [hk])]
          exact ih

theorem find?_append_single_self (r : AugRecord) (k : String) (v : Value)
    (ha : r.any (fun p => p.1 == k) = false) :
    (r ++ [(k, v)]).find? (fun p => p.1 == k) = some (k, v) := by
  induction r with
  | nil => rw [List.nil_append, List.find?_cons_of_pos _ (by simp)]
  | cons p rest ih =>
      rw [List.any_cons, Bool.or_eq_false_iff] at ha
      obtain ⟨h1, h2⟩ := ha
      rw [List.cons_append, List.find?_cons_of_neg _ (by simp [h1])]
      exact ih h2

theorem find?_append_single_ne (r : AugRecord) (q k : String) (v : Value)
    (hne : k ≠ q) :
    (r ++ [(q, v)]).find? (fun p => p.1 == k) =
      r.find? (fun p => p.1 == k) := by
  induction r with
  | nil =>
      rw [List.nil_append, List.find?_cons_of_neg _ (by simp [Ne.symm hne])]
  | cons p rest ih =>
      rw [List.cons_append]
      by_cases hk : p.1 = k
      · rw [List.find?_cons_of_pos _ (by simp [hk]),
          List.find?_cons_of_pos _ (by simp [hk])]
      · rw [List.find?_cons_of_neg _ (by simp [hk]),
          List.find?_cons_of_neg _ (by simp [hk])]
        exact ih

theorem lookupAug_setField_self (r : AugRecord) (k : String) (v : Value) :
    lookupAug (setField r k v) k = some v := by
  unfold setField lookupAug
  by_cases ha : r.any (fun p => p.1 == k) = true
  · rw [if_pos ha, find?_map_overwrite r k v ha]
    rfl
  · have ha' : r.any (fun p => p.1 == k) = false :=
      Bool.eq_false_iff.mpr ha
    rw [if_neg ha, find?_append_single_self r k v ha']
    rfl

theorem lookupAug_setField_ne (r : AugRecord) (q : String) (v : Value)
    (k : String) (hne : k ≠ q) :
    lookupAug (setField r q v) k = lookupAug r k := by
  unfold setField lookupAug
  by_cases ha : r.any (fun p => p.1 == q) = true
  · rw [if_pos ha, find?_map_overwrite_ne r q v k hne]
  · rw [if_neg ha, find?_append_single_ne r q k v hne]

theorem lookupAug_copyRow (row : Record) (k : String) :
    lookupAug (copyRow row) k = (lookupField row k).map Value.str := by
  induction row with
  | nil => rfl
  | cons p rest ih =>
      simp only [lookupAug, copyRow, lookupField, List.map_cons] at ih ⊢
      by_cases hp : p.1 = k
      · rw [List.find?_cons_of_pos _ (by simp [hp]),
          List.find?_cons_of_pos _ (by simp [hp])]
        rfl
      · rw [List.find?_cons_of_neg _ (by simp [hp]),
          List.find?_cons_of_neg _ (by simp [hp])]
        exact ih

/-- C10: on a resolved outcome the output row holds the numeric latitude
and longitude under the fixed names `Latitude` and `Longitude` — by
assignment, so any original value of those columns is overwritten — while
every other column keeps the input row's value. -/
theorem resolved_overwrites_coordinates (svc : Service)
    (cols : ColumnSelection) (row : Record) (lat lng : ℚ)
    (h : rowPath svc cols row = .resolved lat lng) :
    lookupAug (rowOutput svc cols row) "Latitude" = some (.num lat) ∧
    lookupAug (rowOutput svc cols row) "Longitude" = some (.num lng) ∧
    ∀ k, k ≠ "Latitude" → k ≠ "Longitude" →
      lookupAug (rowOutput svc cols row) k =
        (lookupField row k).map Value.str := by
  have hout : rowOutput svc cols row =
      setField (setField (copyRow row) "Latitude" (.num lat))
        "Longitude" (.num lng) := by
    simp [rowOutput, h]
  refine ⟨?_, ?_, ?_⟩
  · rw [hout, lookupAug_setField_ne _ _ _ _ (by decide),
      lookupAug_setField_self]
  · rw [hout, lookupAug_setField_self]
  · intro k hk1 hk2
    rw [hout, lookupAug_setField_ne _ _ _ _ hk2,
      lookupAug_setField_ne _ _ _ _ hk1, lookupAug_copyRow]

/-- C10 witness: a row that already has a `Latitude` column with value
`old` gets it overwritten with the resolved numeric latitude, while the
`addr` column keeps its value. -/
theorem resolved_overwrites_coordinates_witness :
    lookupAug (rowOutput svcDemo demoCols
        [("Latitude", "old"), ("addr", "1 Main St"),
         ("city", "Springfield")]) "Latitude" = some (.num 1) ∧
    lookupAug (rowOutput svcDemo demoCols
        [("Latitude", "old"), ("addr", "1 Main St"),
         ("city", "Springfield")]) "Longitude" = some (.num 2) ∧
    lookupAug (rowOutput svcDemo demoCols
        [("Latitude", "old"), ("addr", "1 Main St"),
         ("city", "Springfield")]) "addr" =
      (lookupField [("Latitude", "old"), ("addr", "1 Main St"),
         ("city", "Springfield")] "addr").map Value.str :=
  ⟨(resolved_overwrites_coordinates svcDemo demoCols
      [("Latitude", "old"), ("addr", "1 Main St"),
       ("city", "Springfield")] 1 2 rfl).1,
   (resolved_overwrites_coordinates svcDemo demoCols
      [("Latitude", "old"), ("addr", "1 Main St"),
       ("city", "Springfield")] 1 2 rfl).2.1,
   (resolved_overwrites_coordinates svcDemo demoCols
      [("Latitude", "old"), ("addr", "1 Main St"),
       ("city", "Springfield")] 1 2 rfl).2.2 "addr" (by decide) (by decide)⟩

end Geocoding
